import Mathlib

/-!
Verification development for the git-push-deploy-daemon supervisor core.

The master module (`master.ts`) is embedded as an executable state machine:
the module-level mutable state becomes `MasterState`, and the asynchronous
event handlers (`cluster.on('message')`, `cluster.on('exit')`, the signal /
IPC command handlers) become state-transforming functions.  Suspension
points (`await` inside `handleReload`, `handleScaleDown`, `pollReadyUrl`)
consume an oracle schedule listing the asynchronous deliveries that occur
during that suspension.  Every function returns, besides the new state, the
list of observable events (forks, registry mutations, tokens sent, kills,
warnings) it performed, so temporal claims become statements about event
traces.

Abstractions: wall-clock values are drawn from a logical `clock` counter
(only `Date.now()` stamps recorded in the registry depend on it); operating
system pids are modelled by the injective map `pidOf` from worker ids
(the claims depend only on pid distinctness, which the OS guarantees for
concurrently live children); log lines carry no state and are dropped
except for the warnings the spec calls observable.
-/

namespace GPDD

/-- Worker lifecycle states, `'starting' | 'ready' | 'draining'` in `master.ts`. -/
inductive WState
  | starting
  | ready
  | draining
  deriving DecidableEq, Repr

/-- `WorkerInfo` from `master.ts`: `{id, pid, state, startTime}`. -/
structure WorkerInfo where
  id : Nat
  pid : Nat
  state : WState
  startTime : Nat
  deriving DecidableEq, Repr

/-- The OS pid of the child forked with worker id `wid` (injective; pids of
concurrently live children are distinct). -/
def pidOf (wid : Nat) : Nat := 1000 + wid

/-- The module-level state of `master.ts`: `appFile`, `startTime`, the
`workers` registry (a `Map` in insertion order, modelled as a list keyed by
`id`), the live children known to `cluster.workers` (by pid), the three
transition flags, and the `nextWorkerId` counter.  `clock` is the logical
wall clock used for `Date.now()` stamps. -/
structure MasterState where
  appFile : String
  startTime : Nat
  workers : List WorkerInfo
  livePids : List Nat
  isShuttingDown : Bool
  isReloading : Bool
  isScalingDown : Bool
  nextWorkerId : Nat
  clock : Nat
  deriving DecidableEq, Repr

/-- `workers.get(id)` on the registry. -/
def findWorker : List WorkerInfo → Nat → Option WorkerInfo
  | [], _ => none
  | w :: ws, i => if w.id = i then some w else findWorker ws i

/-- `findWorkerByPid(pid)` from `master.ts`: first registry entry with this pid. -/
def findWorkerByPid : List WorkerInfo → Nat → Option WorkerInfo
  | [], _ => none
  | w :: ws, p => if w.pid = p then some w else findWorkerByPid ws p

/-- `info.state = st` for the registry entry with id `i` (mutating the found
object in JS updates the entry in place). -/
def setWorkerState (ws : List WorkerInfo) (i : Nat) (st : WState) : List WorkerInfo :=
  ws.map fun w => if w.id = i then { w with state := st } else w

/-- `workers.delete(i)` on the registry. -/
def deleteWorker : List WorkerInfo → Nat → List WorkerInfo
  | [], _ => []
  | w :: ws, i => if w.id = i then deleteWorker ws i else w :: deleteWorker ws i

/-- Removal of a pid from the `cluster.workers` view. -/
def removePid : List Nat → Nat → List Nat
  | [], _ => []
  | p :: ps, q => if p = q then removePid ps q else p :: removePid ps q

/-- Observable actions of the master, in program order. -/
inductive Event
  | forkW (wid pid : Nat)
  | readyMark (wid : Nat)
  | drainMark (wid : Nat)
  | sendShutdownTok (pid : Nat)
  | disconnectW (pid : Nat)
  | killW (pid : Nat)
  | removeEntry (wid : Nat)
  | stopObserved
  | masterExit (code : Nat)
  | warn (msg : String)
  deriving DecidableEq, Repr

/-- `forkWorker()` from `master.ts`: `cluster.fork()`, assign `++nextWorkerId`,
insert `{id, pid, state:'starting', startTime:Date.now()}` into the registry.
Returns the new state, the new worker id, and the events. -/
def forkWorker (s : MasterState) : MasterState × Nat × List Event :=
  let wid := s.nextWorkerId + 1
  let info : WorkerInfo := { id := wid, pid := pidOf wid, state := .starting, startTime := s.clock }
  ({ s with
      workers := s.workers ++ [info],
      livePids := s.livePids ++ [pidOf wid],
      nextWorkerId := wid,
      clock := s.clock + 1 },
   wid, [Event.forkW wid (pidOf wid)])

/-- The `cluster.on('exit')` handler from `master.ts`: the child leaves
`cluster.workers`; its registry entry (found by pid) is deleted; then
if `isShuttingDown`, exit the master once the registry is empty; else if
neither `isReloading` nor `isScalingDown`, fork a replacement immediately. -/
def onWorkerExit (s : MasterState) (pid : Nat) : MasterState × List Event :=
  let s0 := { s with livePids := removePid s.livePids pid }
  let del :=
    match findWorkerByPid s0.workers pid with
    | some i => ({ s0 with workers := deleteWorker s0.workers i.id }, [Event.removeEntry i.id])
    | none => (s0, ([] : List Event))
  let s1 := del.1
  if s1.isShuttingDown then
    if s1.workers.isEmpty then (s1, del.2 ++ [Event.masterExit 0]) else (s1, del.2)
  else if !s1.isReloading && !s1.isScalingDown then
    let f := forkWorker s1
    (f.1, del.2 ++ f.2.2)
  else (s1, del.2)

/-- The `cluster.on('message')` handler for the `'ready'` token: the registry
entry found by the sender's pid is set to `ready`. -/
def onReadyMessage (s : MasterState) (pid : Nat) : MasterState × List Event :=
  match findWorkerByPid s.workers pid with
  | some i => ({ s with workers := setWorkerState s.workers i.id .ready }, [Event.readyMark i.id])
  | none => (s, [])

/-- `handleShutdown()` from `master.ts` (its synchronous part): return at once
if `isShuttingDown` is already set; otherwise set the flag and send the
`shutdown` token plus a disconnect to every live child. -/
def handleShutdown (s : MasterState) : MasterState × List Event :=
  if s.isShuttingDown then (s, [])
  else
    let s1 := { s with isShuttingDown := true }
    (s1, Event.stopObserved :: (s1.livePids.map fun p => [Event.sendShutdownTok p, Event.disconnectW p]).flatten)

/-- `handleScaleUp()` from `master.ts`. -/
def handleScaleUp (s : MasterState) : MasterState × List Event :=
  if s.isShuttingDown then (s, [Event.warn "Cannot scale up during shutdown"])
  else
    let f := forkWorker s
    (f.1, f.2.2)

/-- An asynchronous delivery that can occur at a suspension point of the
supervisor: a child's `'ready'` message, a child exit, or a `stop`
command (SIGTERM / SIGINT / IPC `stop`). -/
inductive Delivery
  | readyMsg (pid : Nat)
  | exited (pid : Nat)
  | stopCmd
  deriving DecidableEq, Repr

/-- Run the corresponding event handler for one delivery. -/
def applyDelivery (s : MasterState) (d : Delivery) : MasterState × List Event :=
  match d with
  | .readyMsg pid => onReadyMessage s pid
  | .exited pid => onWorkerExit s pid
  | .stopCmd => handleShutdown s

/-- Run the handlers for a list of deliveries, in order. -/
def applyDeliveries : MasterState → List Delivery → MasterState × List Event
  | s, [] => (s, [])
  | s, d :: ds =>
      let r := applyDelivery s d
      let r2 := applyDeliveries r.1 ds
      (r2.1, r.2 ++ r2.2)

/-- The value `waitForWorkerReady(wid)` resolves to, read off the registry at
the end of the wait: `false` when the entry is gone (the worker died) or is
not `ready` by the deadline, `true` when the entry is `ready`. -/
def waitReadyOutcome (s : MasterState) (wid : Nat) : Bool :=
  match findWorker s.workers wid with
  | some w => decide (w.state = WState.ready)
  | none => false

/-- The oracle data for one iteration of the reload loop: the deliveries that
occur during `waitForWorkerReady` and those during `waitForExit`. -/
structure StepSched where
  ds1 : List Delivery
  ds2 : List Delivery
  deriving DecidableEq, Repr

/-- One iteration of the reload loop of `handleReload` for snapshot entry
`(oldId, oldPid)`: fork a replacement, wait for it to become ready; on
failure kill and deregister the replacement and keep the old worker; on
success mark the old worker draining (if its cluster handle is still alive),
send it the `shutdown` token, disconnect, wait up to the grace timeout for
its exit (killing on expiry), and delete it from the registry. -/
def reloadStep (s : MasterState) (oldId oldPid : Nat) (sch : StepSched) : MasterState × List Event :=
  let f := forkWorker s
  let nid := f.2.1
  let evF := f.2.2
  let d := applyDeliveries f.1 sch.ds1
  let s2 := d.1
  let evD := d.2
  if waitReadyOutcome s2 nid then
    if oldPid ∈ s2.livePids then
      let s3 := { s2 with workers := setWorkerState s2.workers oldId .draining }
      let w := applyDeliveries s3 sch.ds2
      let s4 := w.1
      let k :=
        if oldPid ∈ s4.livePids then
          ({ s4 with livePids := removePid s4.livePids oldPid }, [Event.killW oldPid])
        else (s4, ([] : List Event))
      let s6 := { k.1 with workers := deleteWorker k.1.workers oldId }
      (s6, evF ++ evD ++
        [Event.drainMark oldId, Event.sendShutdownTok oldPid, Event.disconnectW oldPid] ++
        w.2 ++ k.2 ++ [Event.removeEntry oldId])
    else
      let s3 := { s2 with workers := deleteWorker s2.workers oldId }
      (s3, evF ++ evD ++ [Event.removeEntry oldId])
  else
    let s3 := { s2 with
                livePids := removePid s2.livePids (pidOf nid),
                workers := deleteWorker s2.workers nid }
    (s3, evF ++ evD ++
      [Event.warn "New worker failed to start, keeping old worker",
       Event.killW (pidOf nid), Event.removeEntry nid])

/-- The reload loop: iterate `reloadStep` over the snapshot taken at entry. -/
def reloadLoop : MasterState → List (Nat × Nat) → List StepSched → MasterState × List Event
  | s, [], _ => (s, [])
  | s, e :: rest, sch =>
      let r := reloadStep s e.1 e.2 (sch.headD ⟨[], []⟩)
      let r2 := reloadLoop r.1 rest sch.tail
      (r2.1, r.2 ++ r2.2)

/-- `Array.from(workers.entries())` reduced to the data the loop uses. -/
def registrySnapshot (ws : List WorkerInfo) : List (Nat × Nat) :=
  ws.map fun w => (w.id, w.pid)

/-- `handleReload()` from `master.ts`: rejected with a warning when
`isReloading || isShuttingDown`; otherwise set `isReloading`, snapshot the
registry, run the rolling loop, clear `isReloading`. -/
def handleReload (s : MasterState) (sch : List StepSched) : MasterState × List Event :=
  if s.isReloading || s.isShuttingDown then
    (s, [Event.warn "Reload already in progress"])
  else
    let s1 := { s with isReloading := true }
    let r := reloadLoop s1 (registrySnapshot s1.workers) sch
    ({ r.1 with isReloading := false }, r.2)

/-- `sortedWorkers[0]` of `handleScaleDown`: the registry entry with the
lowest id. -/
def minById : List WorkerInfo → Option WorkerInfo
  | [] => none
  | w :: ws =>
      match minById ws with
      | none => some w
      | some m => if w.id ≤ m.id then some w else some m

/-- `handleScaleDown()` from `master.ts`: rejected with a warning while any of
the three transition flags is set, or when the registry holds at most one
worker; otherwise set `isScalingDown`, retire the lowest-id worker (drain
mark, `shutdown` token, disconnect, bounded wait with kill on expiry),
delete it, and clear `isScalingDown`.  `ds` lists the deliveries occurring
during the `waitForExit` suspension. -/
def handleScaleDown (s : MasterState) (ds : List Delivery) : MasterState × List Event :=
  if s.isShuttingDown || s.isReloading || s.isScalingDown then
    (s, [Event.warn "Cannot scale down during shutdown/reload/scale"])
  else if s.workers.length ≤ 1 then
    (s, [Event.warn "Cannot scale down: minimum 1 worker required"])
  else
    match minById s.workers with
    | none => (s, [])
    | some w =>
        let s1 := { s with isScalingDown := true }
        let r :=
          if w.pid ∈ s1.livePids then
            let s2 := { s1 with workers := setWorkerState s1.workers w.id .draining }
            let dd := applyDeliveries s2 ds
            let k :=
              if w.pid ∈ dd.1.livePids then
                ({ dd.1 with livePids := removePid dd.1.livePids w.pid }, [Event.killW w.pid])
              else (dd.1, ([] : List Event))
            (k.1, [Event.drainMark w.id, Event.sendShutdownTok w.pid, Event.disconnectW w.pid] ++
              dd.2 ++ k.2)
          else (s1, ([] : List Event))
        let s5 := { r.1 with workers := deleteWorker r.1.workers w.id, isScalingDown := false }
        (s5, r.2 ++ [Event.removeEntry w.id])

/-! ## Probe (`health.ts`) and the ready-URL poller (`master.ts`) -/

/-- `READY_CHECK_INTERVAL` from `master.ts` (milliseconds between ready polls). -/
def READY_CHECK_INTERVAL : Nat := 500

/-- What the transport layer does for one `checkHealth` request: an HTTP
response with some status code, a connection-level error, or a timeout. -/
inductive TransportOutcome
  | response (statusCode : Nat)
  | transportError (msg : String)
  | timedOut
  deriving DecidableEq, Repr

/-- `HealthCheckResult` from `health.ts`: `{healthy, status?, error?}`
(a `none` field corresponds to `undefined`; `latencyMs` carries no
information relevant to any claim and is omitted). -/
structure HealthCheckResult where
  healthy : Bool
  status : Option Nat
  error : Option String
  deriving DecidableEq, Repr

/-- `checkHealth(url, timeout, expectedStatus)` from `health.ts` as a function
of the transport outcome: an HTTP response yields `status = statusCode` and
`healthy` iff the code equals `expectedStatus`; a connection error or
timeout yields `status = undefined` and `healthy = false`. -/
def checkHealth (outcome : TransportOutcome) (expectedStatus : Nat) : HealthCheckResult :=
  match outcome with
  | .response c =>
      { healthy := decide (c = expectedStatus),
        status := some c,
        error := if c = expectedStatus then none else some ("unexpected status " ++ toString c) }
  | .transportError m => { healthy := false, status := none, error := some m }
  | .timedOut => { healthy := false, status := none, error := some "timeout" }

/-- The oracle data for one iteration of `pollReadyUrl`: the transport outcome
of this iteration's `checkHealth` call, and the deliveries occurring during
the poll interval that follows a failed probe. -/
structure ProbeRound where
  outcome : TransportOutcome
  ds : List Delivery
  deriving Repr

/-- `pollReadyUrl(workerId, url)` from `master.ts`.  Each list element is one
loop iteration before the deadline; an empty list means the deadline has
been reached.  Per iteration: return silently when the worker is no longer
tracked or no longer `starting`; call `checkHealth(url, 2000, 200)`; if the
result carries any HTTP status (even 404) mark the worker `ready` and stop;
otherwise sleep `READY_CHECK_INTERVAL` and continue.  On deadline expiry a
warning is logged when the worker is still `starting`; its state is not
changed. -/
def pollReadyUrl : MasterState → Nat → List ProbeRound → MasterState × List Event
  | s, wid, [] =>
      match findWorker s.workers wid with
      | some w =>
          if w.state = WState.starting then
            (s, [Event.warn ("Worker " ++ toString wid ++ " ready-check timeout (still starting)")])
          else (s, [])
      | none => (s, [])
  | s, wid, r :: rest =>
      match findWorker s.workers wid with
      | none => (s, [])
      | some w =>
          if w.state ≠ WState.starting then (s, [])
          else if ((checkHealth r.outcome 200).status).isSome then
            ({ s with workers := setWorkerState s.workers wid .ready }, [Event.readyMark wid])
          else
            let d := applyDeliveries s r.ds
            let r2 := pollReadyUrl d.1 wid rest
            (r2.1, d.2 ++ r2.2)

/-! ## IPC surface (`ipc.ts`) -/

/-- The JSON string for one worker state. -/
def WState.toStr : WState → String
  | .starting => "starting"
  | .ready => "ready"
  | .draining => "draining"

/-- `SystemMemory` from `ipc.ts`. -/
structure SystemMemory where
  totalMB : Nat
  freeMB : Nat
  freePercent : Nat
  deriving DecidableEq, Repr

/-- `AutostartInfo` from `ipc.ts`. -/
structure AutostartInfo where
  enabled : Bool
  configuredWorkers : Option Nat
  serviceName : Option String
  deriving DecidableEq, Repr

/-- `WorkerStatus` from `ipc.ts`: `{id, pid, state, startTime, memoryMB?}`.
A `none` optional field is `undefined` in JS and is therefore absent from
the serialized JSON body. -/
structure WorkerStatus where
  id : Nat
  pid : Nat
  state : String
  startTime : Nat
  memoryMB : Option Nat
  deriving DecidableEq, Repr

/-- `RuntimeStatus` from `ipc.ts`:
`{appFile, startTime, workers, appMemoryMB?, system?, autostart?}`. -/
structure RuntimeStatus where
  appFile : String
  startTime : Nat
  workers : List WorkerStatus
  appMemoryMB : Option Nat
  system : Option SystemMemory
  autostart : Option AutostartInfo
  deriving DecidableEq, Repr

/-- The environment-dependent reads `getState` performs: `/proc/[pid]/status`
per worker, `/proc/meminfo`, and the systemd autostart lookup (each yields
`undefined` when unavailable). -/
structure SysEnv where
  procMemoryMB : Nat → Option Nat
  systemMemory : Option SystemMemory
  autostartInfo : Option AutostartInfo

/-- `getState(appFile, startTime, workers)` from `ipc.ts`: map every registry
entry to a `WorkerStatus` carrying `memoryMB` from `/proc`; sum the worker
memory and keep the total only when nonzero (`|| undefined`); attach the
system memory and autostart lookups. -/
def getState (env : SysEnv) (appFile : String) (startTime : Nat)
    (workers : List WorkerInfo) : RuntimeStatus :=
  let workerList := workers.map fun w =>
    ({ id := w.id, pid := w.pid, state := w.state.toStr, startTime := w.startTime,
       memoryMB := env.procMemoryMB w.pid } : WorkerStatus)
  let total := (workerList.map fun w => w.memoryMB.getD 0).sum
  { appFile := appFile,
    startTime := startTime,
    workers := workerList,
    appMemoryMB := if total = 0 then none else some total,
    system := env.systemMemory,
    autostart := env.autostartInfo }

/-- The response bodies of the IPC HTTP server in `startStatusServer`. -/
inductive IpcResponse
  | preflight
  | dashboard
  | statusBody (r : RuntimeStatus)
  | okCmd (cmd : String)
  | noHandler
  | notFound
  deriving Repr

/-- The request dispatch of `startStatusServer` from `ipc.ts`: the pair is the
HTTP status code and the response body.  `hasCommandCb` is whether a command
callback was registered. -/
def handleRequest (method url : String) (hasCommandCb : Bool)
    (status : RuntimeStatus) : Nat × IpcResponse :=
  if method = "OPTIONS" then (204, .preflight)
  else if method = "GET" ∧ (url = "/" ∨ url = "/dashboard") then (200, .dashboard)
  else if method = "GET" ∧ url = "/status" then (200, .statusBody status)
  else if method = "POST" ∧ url = "/reload" then
    if hasCommandCb then (200, .okCmd "reload") else (500, .noHandler)
  else if method = "POST" ∧ url = "/stop" then
    if hasCommandCb then (200, .okCmd "stop") else (500, .noHandler)
  else if method = "POST" ∧ url = "/scale/up" then
    if hasCommandCb then (200, .okCmd "scale-up") else (500, .noHandler)
  else if method = "POST" ∧ url = "/scale/down" then
    if hasCommandCb then (200, .okCmd "scale-down") else (500, .noHandler)
  else (404, .notFound)

/-- The worker shape named by the spec's external contract:
`{id, pid, state, startTime}`. -/
structure SpecWorkerStatus where
  id : Nat
  pid : Nat
  state : String
  startTime : Nat
  deriving DecidableEq, Repr

/-- The status shape named by the spec's external contract:
`{appFile, startTime, workers:[{id,pid,state,startTime}]}`. -/
structure SpecRuntimeStatus where
  appFile : String
  startTime : Nat
  workers : List SpecWorkerStatus
  deriving DecidableEq, Repr

/-- Modelled from the spec: the `GET /status` body shape
`{appFile, startTime, workers:[{id,pid,state,startTime}]}` with one entry
per registry entry (spec section 6, claim C8). -/
def specStatusOfRegistry (appFile : String) (startTime : Nat)
    (workers : List WorkerInfo) : SpecRuntimeStatus :=
  { appFile := appFile,
    startTime := startTime,
    workers := workers.map fun w =>
      ({ id := w.id, pid := w.pid, state := w.state.toStr, startTime := w.startTime } :
        SpecWorkerStatus) }

/-- Projection of the implementation's status onto the spec's field set. -/
def specOfStatus (r : RuntimeStatus) : SpecRuntimeStatus :=
  { appFile := r.appFile,
    startTime := r.startTime,
    workers := r.workers.map fun w =>
      ({ id := w.id, pid := w.pid, state := w.state, startTime := w.startTime } :
        SpecWorkerStatus) }

/-- `true` iff the serialized JSON body of `r` has exactly the fields of the
spec shape: since `JSON.stringify` drops `undefined` fields, this holds iff
every optional field of `r` is `undefined`. -/
def statusHasExactSpecShape (r : RuntimeStatus) : Bool :=
  r.appMemoryMB.isNone && r.system.isNone && r.autostart.isNone &&
    r.workers.all fun w => w.memoryMB.isNone

/-! ## Port-file parsing and the CLI-side IPC clients (`ipc.ts`) -/

/-- JavaScript `parseInt(s, 10)`: skip leading whitespace, read an optional
sign, then the longest prefix of decimal digits; `NaN` (here `none`) when
that prefix is empty. -/
def jsParseInt10 (s : String) : Option Int :=
  let cs := s.data.dropWhile fun c => c = ' ' ∨ c = '\t' ∨ c = '\n' ∨ c = '\r'
  let signAndRest : Int × List Char :=
    match cs with
    | '-' :: rest => (-1, rest)
    | '+' :: rest => (1, rest)
    | _ => (1, cs)
  let ds := signAndRest.2.takeWhile fun c => c.isDigit
  if ds.isEmpty then none
  else some (signAndRest.1 * (ds.foldl (fun a c => a * 10 + (c.toNat - 48)) 0 : Nat))

/-- `readPortFile()` from `ipc.ts`: `none` when the file read throws
(`fc = none`); otherwise `parseInt(content.trim(), 10) || null`, so both
`NaN` and `0` collapse to `null`.  Since `parseInt` itself skips leading
whitespace and ignores everything after the digit prefix, the `.trim()`
call changes no result and is absorbed into `jsParseInt10`. -/
def readPortFile (fc : Option String) : Option Int :=
  match fc with
  | none => none
  | some content =>
      match jsParseInt10 content with
      | none => none
      | some n => if n = 0 then none else some n

/-- `getStatus()` from `ipc.ts`: resolve `null` without any HTTP request when
`readPortFile` yields `null`; otherwise issue `GET /status` against the
port (`fetch` abstracts the HTTP round trip). -/
def getStatus (fc : Option String) (fetch : Int → Option RuntimeStatus) : Option RuntimeStatus :=
  match readPortFile fc with
  | none => none
  | some port => fetch port

/-- `sendCommand(command)` from `ipc.ts`: resolve `false` without any HTTP
request when `readPortFile` yields `null`; otherwise POST to the port and
report whether the response status was 200 (`post` abstracts the round
trip). -/
def sendCommand (fc : Option String) (post : Int → Bool) : Bool :=
  match readPortFile fc with
  | none => false
  | some port => post port

/-! ## Helpers shared by the claim theorems -/

/-- Whether an event is a worker spawn. -/
def isForkEvent : Event → Bool
  | .forkW _ _ => true
  | _ => false

/-- Number of worker spawns in an event trace. -/
def countForks (evs : List Event) : Nat := (evs.filter isForkEvent).length

/-- Index of the first occurrence of an event in a trace (length if absent). -/
def firstIdxOf (e : Event) : List Event → Nat
  | [] => 0
  | x :: xs => if x = e then 0 else firstIdxOf e xs + 1

/-- A well-formedness fact of the registry: ids never exceed the id counter
(`nextWorkerId` is only ever incremented and ids come from it). -/
def IdBound (s : MasterState) : Prop := ∀ w ∈ s.workers, w.id ≤ s.nextWorkerId

instance (s : MasterState) : Decidable (IdBound s) := by
  unfold IdBound
  infer_instance

/-- Sample worker for concrete runs. -/
def wOne : WorkerInfo := { id := 1, pid := 1001, state := .ready, startTime := 0 }

/-- Second sample worker for concrete runs. -/
def wTwo : WorkerInfo := { id := 2, pid := 1002, state := .ready, startTime := 0 }

/-- A healthy two-worker master state. -/
def sTwo : MasterState :=
  { appFile := "app.js", startTime := 0, workers := [wOne, wTwo], livePids := [1001, 1002],
    isShuttingDown := false, isReloading := false, isScalingDown := false,
    nextWorkerId := 2, clock := 10 }

/-- A master state that has observed a `stop` command. -/
def sDown : MasterState :=
  { appFile := "app.js", startTime := 0, workers := [wOne], livePids := [1001],
    isShuttingDown := true, isReloading := false, isScalingDown := false,
    nextWorkerId := 1, clock := 5 }

/-- A master state with a scale-down step in progress. -/
def sScaling : MasterState :=
  { appFile := "app.js", startTime := 0, workers := [wOne], livePids := [1001],
    isShuttingDown := false, isReloading := false, isScalingDown := true,
    nextWorkerId := 1, clock := 5 }

/-! ## C9 -/

/-- C9: shutdown is idempotent.  Invoking `handleShutdown` while
`isShuttingDown` is already set returns immediately with no state change and
no effects; after any first invocation the flag is set, so every further
`stop` command is a no-op and any sequence of repeated `stop` commands has
the effect of a single one. -/
theorem shutdown_idempotent (s : MasterState) :
    (s.isShuttingDown = true → handleShutdown s = (s, []))
    ∧ (handleShutdown s).1.isShuttingDown = true
    ∧ handleShutdown (handleShutdown s).1 = ((handleShutdown s).1, []) := by
  unfold handleShutdown
  cases h : s.isShuttingDown <;> simp_all

/-- Witness for C9 at a concrete state with `isShuttingDown` set. -/
theorem shutdown_idempotent_witness :
    sDown.isShuttingDown = true ∧ handleShutdown sDown = (sDown, []) :=
  ⟨by decide, (shutdown_idempotent sDown).1 (by decide)⟩

/-! ## C5 -/

/-- C5: the worker-exit policy.  When a tracked worker exits while none of
the three transition flags is set, its registry entry is removed and exactly
one fresh worker (`nextWorkerId + 1`, state `starting`) is forked
immediately; when `isReloading` or `isScalingDown` is set, the registry
entry is deleted and no replacement is forked. -/
theorem worker_exit_policy (s : MasterState) (pid : Nat) (i : WorkerInfo)
    (hfind : findWorkerByPid s.workers pid = some i) :
    (s.isShuttingDown = false → s.isReloading = false → s.isScalingDown = false →
      (onWorkerExit s pid).1.workers =
        deleteWorker s.workers i.id ++
          [{ id := s.nextWorkerId + 1, pid := pidOf (s.nextWorkerId + 1),
             state := WState.starting, startTime := s.clock }]
      ∧ countForks (onWorkerExit s pid).2 = 1)
    ∧ (s.isReloading = true ∨ s.isScalingDown = true →
      (onWorkerExit s pid).1.workers = deleteWorker s.workers i.id
      ∧ countForks (onWorkerExit s pid).2 = 0) := by
  constructor
  · intro h1 h2 h3
    simp [onWorkerExit, forkWorker, hfind, h1, h2, h3, countForks, isForkEvent]
  · intro h
    by_cases hs : s.isShuttingDown = true
    · constructor
      · simp [onWorkerExit, hfind, hs]
        split <;> simp
      · simp [onWorkerExit, hfind, hs, countForks]
        split <;> simp [isForkEvent]
    · rcases h with h | h <;>
        simp [onWorkerExit, hfind, eq_false_of_ne_true hs, h, countForks, isForkEvent]

/-- Witness for C5: a concrete exit of worker 1 in a healthy state forks a
replacement, and the same exit during a reload does not. -/
theorem worker_exit_policy_witness :
    findWorkerByPid sTwo.workers 1001 = some wOne
    ∧ ((onWorkerExit sTwo 1001).1.workers =
        deleteWorker sTwo.workers 1 ++
          [{ id := 3, pid := 1003, state := WState.starting, startTime := 10 }]
      ∧ countForks (onWorkerExit sTwo 1001).2 = 1) :=
  ⟨by decide,
   (worker_exit_policy sTwo 1001 wOne (by decide)).1 (by decide) (by decide) (by decide)⟩

/-! ## C2 (counterexample and amended guards) -/

/-- C2 counterexample: while a scale-down is in progress
(`isScalingDown = true`), an attempt to start a reload is NOT rejected: it
is not answered by the rejection warning alone, it mutates the state, and
it forks a worker.  This refutes the claim that every attempt to start a
reload while any of the three transitions is active is rejected without
state change. -/
theorem reload_during_scaledown_not_rejected :
    sScaling.isScalingDown = true
    ∧ (handleReload sScaling [⟨[], []⟩]).1 ≠ sScaling
    ∧ Event.forkW 2 1002 ∈ (handleReload sScaling [⟨[], []⟩]).2
    ∧ (handleReload sScaling [⟨[], []⟩]).2 ≠ [Event.warn "Reload already in progress"] := by
  decide

/-- C2 amended: a scale-down attempt is rejected with a warning and no state
change while any of reload, scale-down or shutdown is active; a reload
attempt is rejected with a warning and no state change while a reload or a
shutdown is active (but not while only a scale-down is active). -/
theorem transition_guards (s : MasterState) (sch : List StepSched) (ds : List Delivery) :
    (s.isReloading = true ∨ s.isShuttingDown = true →
      handleReload s sch = (s, [Event.warn "Reload already in progress"]))
    ∧ (s.isShuttingDown = true ∨ s.isReloading = true ∨ s.isScalingDown = true →
      handleScaleDown s ds = (s, [Event.warn "Cannot scale down during shutdown/reload/scale"])) := by
  constructor
  · intro h
    rcases h with h | h <;> simp [handleReload, h]
  · intro h
    rcases h with h | h | h <;> simp [handleScaleDown, h]

/-- Witness for the amended C2 at a concrete state with a scale-down active. -/
theorem transition_guards_witness :
    sScaling.isScalingDown = true
    ∧ handleScaleDown sScaling [] =
        (sScaling, [Event.warn "Cannot scale down during shutdown/reload/scale"]) :=
  ⟨by decide, (transition_guards sScaling [] []).2 (Or.inr (Or.inr (by decide)))⟩

/-! ## Registry and delivery lemmas -/

theorem findWorker_id_eq {ws : List WorkerInfo} {i : Nat} {w : WorkerInfo}
    (h : findWorker ws i = some w) : w.id = i := by
  induction ws with
  | nil => simp [findWorker] at h
  | cons x xs ih =>
      unfold findWorker at h
      split at h
      · cases h
        assumption
      · exact ih h

theorem findWorker_eq_none {ws : List WorkerInfo} {i : Nat}
    (h : ∀ w ∈ ws, w.id ≠ i) : findWorker ws i = none := by
  induction ws with
  | nil => rfl
  | cons x xs ih =>
      unfold findWorker
      rw [if_neg (h x (by simp))]
      exact ih fun w hw => h w (by simp [hw])

theorem findWorker_append_right {ws₁ ws₂ : List WorkerInfo} {i : Nat}
    (h : findWorker ws₁ i = none) : findWorker (ws₁ ++ ws₂) i = findWorker ws₂ i := by
  induction ws₁ with
  | nil => rfl
  | cons x xs ih =>
      simp only [findWorker] at h
      split at h
      · exact absurd h (by simp)
      · simp only [List.cons_append, findWorker]
        rw [if_neg (by assumption)]
        exact ih h

theorem findWorker_set (ws : List WorkerInfo) (i : Nat) (st : WState) (j : Nat) :
    findWorker (setWorkerState ws i st) j =
      (findWorker ws j).map fun w => if w.id = i then { w with state := st } else w := by
  induction ws with
  | nil => simp [setWorkerState, findWorker]
  | cons x xs ih =>
      simp only [setWorkerState, List.map_cons, findWorker] at ih ⊢
      have hid : (if x.id = i then { x with state := st } else x).id = x.id := by
        split <;> rfl
      by_cases hxj : x.id = j
      · rw [if_pos (hid.trans hxj), if_pos hxj]
        rfl
      · rw [if_neg (fun hc => hxj (hid.symm.trans hc)), if_neg hxj]
        exact ih

theorem findWorker_delete (ws : List WorkerInfo) (i j : Nat) :
    findWorker (deleteWorker ws i) j = if j = i then none else findWorker ws j := by
  induction ws with
  | nil => simp [deleteWorker, findWorker]
  | cons x xs ih =>
      simp only [deleteWorker]
      by_cases hxi : x.id = i
      · rw [if_pos hxi, ih]
        by_cases hji : j = i
        · simp only [if_pos hji]
        · simp only [if_neg hji, findWorker]
          rw [if_neg (show ¬ x.id = j by omega)]
      · rw [if_neg hxi]
        simp only [findWorker]
        by_cases hxj : x.id = j
        · simp only [if_pos hxj, if_neg (show ¬ j = i by omega)]
        · simp only [if_neg hxj, ih]

theorem mem_deleteWorker {ws : List WorkerInfo} {i : Nat} {w : WorkerInfo}
    (h : w ∈ deleteWorker ws i) : w ∈ ws := by
  induction ws with
  | nil => simp [deleteWorker] at h
  | cons x xs ih =>
      unfold deleteWorker at h
      split at h
      · exact List.mem_cons_of_mem _ (ih h)
      · rcases List.mem_cons.1 h with h | h
        · simp [h]
        · exact List.mem_cons_of_mem _ (ih h)

theorem mem_removePid {l : List Nat} {p q : Nat} :
    p ∈ removePid l q → p ∈ l := by
  induction l with
  | nil => simp [removePid]
  | cons x xs ih =>
      unfold removePid
      split
      · intro h
        exact List.mem_cons_of_mem _ (ih h)
      · intro h
        rcases List.mem_cons.1 h with h | h
        · simp [h]
        · exact List.mem_cons_of_mem _ (ih h)

theorem not_mem_removePid_self (l : List Nat) (q : Nat) : q ∉ removePid l q := by
  induction l with
  | nil => simp [removePid]
  | cons x xs ih =>
      unfold removePid
      split
      · exact ih
      · intro h
        rcases List.mem_cons.1 h with h | h
        · exact absurd h.symm (by assumption)
        · exact ih h

theorem onWorkerExit_shape (s : MasterState) (p : Nat) :
    (onWorkerExit s p).1.isShuttingDown = s.isShuttingDown
    ∧ (onWorkerExit s p).1.isReloading = s.isReloading
    ∧ (onWorkerExit s p).1.isScalingDown = s.isScalingDown
    ∧ s.nextWorkerId ≤ (onWorkerExit s p).1.nextWorkerId := by
  unfold onWorkerExit
  cases hf : findWorkerByPid { s with livePids := removePid s.livePids p }.workers p <;>
    simp only [hf] <;> split
  · split <;> exact ⟨rfl, rfl, rfl, Nat.le_refl _⟩
  · split
    · exact ⟨rfl, rfl, rfl, Nat.le_succ _⟩
    · exact ⟨rfl, rfl, rfl, Nat.le_refl _⟩
  · split <;> exact ⟨rfl, rfl, rfl, Nat.le_refl _⟩
  · split
    · exact ⟨rfl, rfl, rfl, Nat.le_succ _⟩
    · exact ⟨rfl, rfl, rfl, Nat.le_refl _⟩

theorem onReadyMessage_shape (s : MasterState) (p : Nat) :
    (onReadyMessage s p).1.isShuttingDown = s.isShuttingDown
    ∧ (onReadyMessage s p).1.isReloading = s.isReloading
    ∧ (onReadyMessage s p).1.isScalingDown = s.isScalingDown
    ∧ (onReadyMessage s p).1.livePids = s.livePids
    ∧ (onReadyMessage s p).1.nextWorkerId = s.nextWorkerId := by
  unfold onReadyMessage
  cases hf : findWorkerByPid s.workers p <;> simp [hf]

theorem handleShutdown_shape (s : MasterState) :
    (handleShutdown s).1.isReloading = s.isReloading
    ∧ (handleShutdown s).1.isScalingDown = s.isScalingDown
    ∧ (handleShutdown s).1.workers = s.workers
    ∧ (handleShutdown s).1.livePids = s.livePids
    ∧ (handleShutdown s).1.nextWorkerId = s.nextWorkerId := by
  unfold handleShutdown
  split <;> simp

theorem applyDelivery_flags (s : MasterState) (d : Delivery) :
    (applyDelivery s d).1.isReloading = s.isReloading
    ∧ (applyDelivery s d).1.isScalingDown = s.isScalingDown := by
  cases d with
  | readyMsg p =>
      exact ⟨(onReadyMessage_shape s p).2.1, (onReadyMessage_shape s p).2.2.1⟩
  | exited p =>
      exact ⟨(onWorkerExit_shape s p).2.1, (onWorkerExit_shape s p).2.2.1⟩
  | stopCmd =>
      exact ⟨(handleShutdown_shape s).1, (handleShutdown_shape s).2.1⟩

theorem applyDeliveries_flags (ds : List Delivery) :
    ∀ s : MasterState, (applyDeliveries s ds).1.isReloading = s.isReloading
      ∧ (applyDeliveries s ds).1.isScalingDown = s.isScalingDown := by
  induction ds with
  | nil => intro s; simp [applyDeliveries]
  | cons d ds ih =>
      intro s
      have h1 := applyDelivery_flags s d
      have h2 := ih (applyDelivery s d).1
      simp only [applyDeliveries]
      exact ⟨h2.1.trans h1.1, h2.2.trans h1.2⟩

theorem onWorkerExit_events_no_drain (s : MasterState) (p : Nat) (x : Nat) :
    Event.drainMark x ∉ (onWorkerExit s p).2 := by
  unfold onWorkerExit
  cases hf : findWorkerByPid { s with livePids := removePid s.livePids p }.workers p <;>
    simp only [hf] <;> split
  · split <;> simp
  · split
    · simp [forkWorker]
    · simp
  · split <;> simp
  · split
    · simp [forkWorker]
    · simp

theorem onReadyMessage_no_drain (s : MasterState) (p : Nat) (x : Nat) :
    Event.drainMark x ∉ (onReadyMessage s p).2 := by
  unfold onReadyMessage
  cases hf : findWorkerByPid s.workers p <;> simp [hf]

theorem handleShutdown_no_drain (s : MasterState) (x : Nat) :
    Event.drainMark x ∉ (handleShutdown s).2 := by
  unfold handleShutdown
  split
  · simp
  · simp only [List.mem_cons, List.mem_flatten]
    rintro (h | ⟨l, hl, hm⟩)
    · exact Event.noConfusion h
    · rcases List.mem_map.1 hl with ⟨q, _, rfl⟩
      simp at hm

theorem drainMark_not_in_applyDelivery (s : MasterState) (d : Delivery) (x : Nat) :
    Event.drainMark x ∉ (applyDelivery s d).2 := by
  cases d with
  | readyMsg p => exact onReadyMessage_no_drain s p x
  | exited p => exact onWorkerExit_events_no_drain s p x
  | stopCmd => exact handleShutdown_no_drain s x

theorem drainMark_not_in_applyDeliveries (ds : List Delivery) :
    ∀ (s : MasterState) (x : Nat), Event.drainMark x ∉ (applyDeliveries s ds).2 := by
  induction ds with
  | nil => intro s x; simp [applyDeliveries]
  | cons d ds ih =>
      intro s x
      simp only [applyDeliveries, List.mem_append]
      rintro (h | h)
      · exact drainMark_not_in_applyDelivery s d x h
      · exact ih _ x h

theorem onWorkerExit_busy_livePids (s : MasterState) (p : Nat)
    (h : s.isReloading = true ∨ s.isScalingDown = true) :
    (onWorkerExit s p).1.livePids = removePid s.livePids p := by
  unfold onWorkerExit
  cases hf : findWorkerByPid { s with livePids := removePid s.livePids p }.workers p <;>
    simp only [hf] <;> split
  · split <;> rfl
  · split
    · rename_i hcond
      exfalso
      rcases h with h | h <;> simp [h] at hcond
    · rfl
  · split <;> rfl
  · split
    · rename_i hcond
      exfalso
      rcases h with h | h <;> simp [h] at hcond
    · rfl

theorem applyDelivery_livePids_busy (s : MasterState) (d : Delivery)
    (h : s.isReloading = true ∨ s.isScalingDown = true) :
    ∀ p, p ∈ (applyDelivery s d).1.livePids → p ∈ s.livePids := by
  intro p
  cases d with
  | readyMsg q =>
      intro hm
      rw [show (applyDelivery s (Delivery.readyMsg q)).1.livePids =
        (onReadyMessage s q).1.livePids from rfl, (onReadyMessage_shape s q).2.2.2.1] at hm
      exact hm
  | exited q =>
      intro hm
      rw [show (applyDelivery s (Delivery.exited q)).1.livePids =
        (onWorkerExit s q).1.livePids from rfl, onWorkerExit_busy_livePids s q h] at hm
      exact mem_removePid hm
  | stopCmd =>
      intro hm
      rw [show (applyDelivery s Delivery.stopCmd).1.livePids =
        (handleShutdown s).1.livePids from rfl, (handleShutdown_shape s).2.2.2.1] at hm
      exact hm

theorem applyDeliveries_livePids_busy (ds : List Delivery) :
    ∀ s : MasterState, s.isReloading = true ∨ s.isScalingDown = true →
      ∀ p, p ∈ (applyDeliveries s ds).1.livePids → p ∈ s.livePids := by
  induction ds with
  | nil => intro s _ p; simp [applyDeliveries]
  | cons d ds ih =>
      intro s h p hp
      have hf := applyDelivery_flags s d
      have h1 : (applyDelivery s d).1.isReloading = true ∨
          (applyDelivery s d).1.isScalingDown = true := by
        rcases h with h | h
        · exact Or.inl (hf.1.trans h)
        · exact Or.inr (hf.2.trans h)
      exact applyDelivery_livePids_busy s d h p (ih _ h1 p hp)

theorem minById_cons (x : WorkerInfo) (xs : List WorkerInfo) :
    minById (x :: xs) = match minById xs with
      | none => some x
      | some m => if x.id ≤ m.id then some x else some m := rfl

theorem minById_ne_none (x : WorkerInfo) (xs : List WorkerInfo) :
    minById (x :: xs) ≠ none := by
  rw [minById_cons]
  cases minById xs with
  | none => simp
  | some m =>
      simp only []
      split <;> simp

theorem minById_mem {ws : List WorkerInfo} {m : WorkerInfo}
    (h : minById ws = some m) : m ∈ ws := by
  induction ws generalizing m with
  | nil => simp [minById] at h
  | cons x xs ih =>
      unfold minById at h
      split at h
      · cases h
        simp
      · split at h
        · cases h
          simp
        · cases h
          exact List.mem_cons_of_mem _ (ih (by assumption))

theorem minById_le {ws : List WorkerInfo} {m : WorkerInfo}
    (h : minById ws = some m) : ∀ w ∈ ws, m.id ≤ w.id := by
  induction ws generalizing m with
  | nil => simp [minById] at h
  | cons x xs ih =>
      intro w hw
      rw [minById_cons] at h
      cases hxs : minById xs with
      | none =>
          rw [hxs] at h
          have h2 : some x = some m := h
          cases h2
          rcases List.mem_cons.1 hw with rfl | hw
          · exact Nat.le_refl _
          · cases xs with
            | nil => simp at hw
            | cons y ys => exact absurd hxs (minById_ne_none y ys)
      | some m2 =>
          rw [hxs] at h
          have h2 : (if x.id ≤ m2.id then some x else some m2) = some m := h
          have hle := ih hxs
          rcases List.mem_cons.1 hw with rfl | hw
          · by_cases hc : w.id ≤ m2.id
            · rw [if_pos hc] at h2
              cases h2
              exact Nat.le_refl _
            · rw [if_neg hc] at h2
              cases h2
              omega
          · have hww := hle w hw
            by_cases hc : x.id ≤ m2.id
            · rw [if_pos hc] at h2
              cases h2
              omega
            · rw [if_neg hc] at h2
              cases h2
              exact hww

/-! ## C1 (counterexample and amended guards) -/

/-- A schedule in which a `stop` command is observed during the first reload
step's ready-wait (after the replacement's `ready` message), and the first
old worker exits during its drain wait. -/
def stopDuringReloadSched : List StepSched :=
  [{ ds1 := [.readyMsg 1003, .stopCmd], ds2 := [.exited 1001] },
   { ds1 := [], ds2 := [] }]

/-- C1 counterexample: a reload in progress does NOT exit its loop when a
`stop` command is observed at one of its suspension points.  In this
concrete run the shutdown is observed during the first step's ready-wait
(`stopObserved` enters the trace, and the final state has `isShuttingDown`),
yet the loop goes on to fork the replacement worker 4 for the second
snapshot entry strictly after that observation. -/
theorem reload_ignores_shutdown_flag :
    sTwo.isShuttingDown = false
    ∧ Event.stopObserved ∈ (handleReload sTwo stopDuringReloadSched).2
    ∧ Event.forkW 4 1004 ∈ (handleReload sTwo stopDuringReloadSched).2
    ∧ firstIdxOf Event.stopObserved (handleReload sTwo stopDuringReloadSched).2 <
        firstIdxOf (Event.forkW 4 1004) (handleReload sTwo stopDuringReloadSched).2
    ∧ (handleReload sTwo stopDuringReloadSched).1.isShuttingDown = true := by
  decide

/-- C1 amended: once `isShuttingDown` is set, no NEW spawning transition
begins: a reload invoked after the observation is rejected immediately and
forks nothing, a worker exit triggers no crash-restart fork, and a scale-up
is rejected.  (A reload already in progress, however, does not re-check the
flag at its suspension points and may still fork replacements for the
remaining snapshot entries.) -/
theorem shutdown_terminal_guards (s : MasterState) (sch : List StepSched) (pid : Nat)
    (h : s.isShuttingDown = true) :
    handleReload s sch = (s, [Event.warn "Reload already in progress"])
    ∧ countForks (onWorkerExit s pid).2 = 0
    ∧ handleScaleUp s = (s, [Event.warn "Cannot scale up during shutdown"]) := by
  refine ⟨by simp [handleReload, h], ?_, by simp [handleScaleUp, h]⟩
  unfold onWorkerExit
  cases hf : findWorkerByPid { s with livePids := removePid s.livePids pid }.workers pid <;>
    simp [hf, h, countForks] <;> split <;> simp [isForkEvent]

/-- Witness for the amended C1 at a concrete shut-down state. -/
theorem shutdown_terminal_guards_witness :
    sDown.isShuttingDown = true
    ∧ handleReload sDown [] = (sDown, [Event.warn "Reload already in progress"])
    ∧ countForks (onWorkerExit sDown 1001).2 = 0
    ∧ handleScaleUp sDown = (sDown, [Event.warn "Cannot scale up during shutdown"]) :=
  ⟨by decide, shutdown_terminal_guards sDown [] 1001 (by decide)⟩

/-! ## C6 -/

/-- During `pollReadyUrl`, rounds whose probe fails at the transport level
only keep polling: with no concurrent deliveries the state is unchanged and
on deadline expiry a warning is logged while the worker stays `starting`. -/
theorem pollReadyUrl_transport_failure_polls (s : MasterState) (wid : Nat) (w : WorkerInfo)
    (m : String) (hw : findWorker s.workers wid = some w) (hst : w.state = WState.starting) :
    ∀ n, pollReadyUrl s wid (List.replicate n { outcome := .transportError m, ds := [] }) =
      (s, [Event.warn ("Worker " ++ toString wid ++ " ready-check timeout (still starting)")]) := by
  intro n
  induction n with
  | zero => simp [pollReadyUrl, hw, hst]
  | succ k ih =>
      simp [List.replicate_succ, pollReadyUrl, hw, hst, checkHealth, applyDeliveries, ih]

/-- C6: with `readyUrl` configured, a worker in state `starting` is marked
`ready` by the poller as soon as `checkHealth` obtains any HTTP-level
response — including a 4xx/5xx one, as witnessed by `checkHealth` reporting
`status = some 404` (while `healthy = false`) for a 404 response against
expected status 200; a transport-level failure keeps polling at the 500 ms
interval; and when no response arrives before the deadline, a warning is
logged and the worker stays `starting` (the state is unchanged). -/
theorem ready_probe_semantics (s : MasterState) (wid : Nat) (w : WorkerInfo)
    (c : Nat) (rounds : List ProbeRound) (m : String) (n : Nat)
    (hw : findWorker s.workers wid = some w) (hst : w.state = WState.starting) :
    pollReadyUrl s wid ({ outcome := .response c, ds := [] } :: rounds) =
      ({ s with workers := setWorkerState s.workers wid .ready }, [Event.readyMark wid])
    ∧ (checkHealth (.response 404) 200).status = some 404
    ∧ (checkHealth (.response 404) 200).healthy = false
    ∧ pollReadyUrl s wid (List.replicate n { outcome := .transportError m, ds := [] }) =
        (s, [Event.warn ("Worker " ++ toString wid ++ " ready-check timeout (still starting)")])
    ∧ READY_CHECK_INTERVAL = 500 := by
  refine ⟨?_, by decide, by decide, ?_, rfl⟩
  · simp [pollReadyUrl, hw, hst, checkHealth]
  · exact pollReadyUrl_transport_failure_polls s wid w m hw hst n

/-- Witness for C6 on a concrete starting worker: a 404 response marks it
ready, and three failed probes leave it starting with a timeout warning. -/
theorem ready_probe_semantics_witness :
    findWorker [{ id := 3, pid := 1003, state := WState.starting, startTime := 0 }] 3 =
      some { id := 3, pid := 1003, state := WState.starting, startTime := 0 }
    ∧ (pollReadyUrl
        { appFile := "app.js", startTime := 0,
          workers := [{ id := 3, pid := 1003, state := WState.starting, startTime := 0 }],
          livePids := [1003], isShuttingDown := false, isReloading := false,
          isScalingDown := false, nextWorkerId := 3, clock := 2 } 3
        ({ outcome := .response 404, ds := [] } :: [])).2 = [Event.readyMark 3] :=
  ⟨by decide,
   by
    have h := ready_probe_semantics
      { appFile := "app.js", startTime := 0,
        workers := [{ id := 3, pid := 1003, state := WState.starting, startTime := 0 }],
        livePids := [1003], isShuttingDown := false, isReloading := false,
        isScalingDown := false, nextWorkerId := 3, clock := 2 } 3
      { id := 3, pid := 1003, state := WState.starting, startTime := 0 }
      404 [] "err" 0 (by decide) (by decide)
    rw [h.1]⟩

/-! ## C10 -/

/-- C10: when the IPC port sidecar file is missing or unreadable
(`fc = none`) or its content does not parse to a nonzero decimal integer
(`parseInt(content.trim(), 10)` is `NaN` or `0`), `readPortFile` returns
`null`; consequently `getStatus` resolves to `null` and `sendCommand`
resolves to `false` for EVERY behaviour of the HTTP layer — that is,
without issuing any HTTP request. -/
theorem ipc_unavailable (fc : Option String)
    (h : fc = none ∨ ∃ c, fc = some c ∧
      (jsParseInt10 c = none ∨ jsParseInt10 c = some 0)) :
    readPortFile fc = none
    ∧ (∀ fetch, getStatus fc fetch = none)
    ∧ (∀ post, sendCommand fc post = false) := by
  have hr : readPortFile fc = none := by
    rcases h with h | ⟨c, rfl, h⟩
    · simp [h, readPortFile]
    · rcases h with h | h <;> simp [readPortFile, h]
  exact ⟨hr, fun fetch => by simp [getStatus, hr], fun post => by simp [sendCommand, hr]⟩

/-- Witness for C10 on the concrete non-numeric content `"abc"` and the
concrete zero content `"0"`. -/
theorem ipc_unavailable_witness :
    jsParseInt10 "abc" = none
    ∧ readPortFile (some "abc") = none
    ∧ getStatus (some "abc") (fun _ => none) = none
    ∧ sendCommand (some "abc") (fun _ => true) = false
    ∧ readPortFile (some "0") = none :=
  ⟨by decide,
   (ipc_unavailable (some "abc") (Or.inr ⟨"abc", rfl, Or.inl (by decide)⟩)).1,
   (ipc_unavailable (some "abc") (Or.inr ⟨"abc", rfl, Or.inl (by decide)⟩)).2.1 _,
   (ipc_unavailable (some "abc") (Or.inr ⟨"abc", rfl, Or.inl (by decide)⟩)).2.2 _,
   (ipc_unavailable (some "0") (Or.inr ⟨"0", rfl, Or.inr (by decide)⟩)).1⟩

/-! ## C8 (counterexample and amended contract) -/

/-- An environment in which `/proc/[pid]/status` reports 5 MB for every
worker (a Linux host), with no meminfo or systemd data. -/
def memEnv : SysEnv :=
  { procMemoryMB := fun _ => some 5, systemMemory := none, autostartInfo := none }

/-- C8 counterexample: the `GET /status` body shape is NOT exactly
`{appFile, startTime, workers:[{id,pid,state,startTime}]}`: on a host where
the per-process memory read succeeds, each worker entry additionally
carries `memoryMB` and the top level carries `appMemoryMB`, so the
serialized body has fields outside the claimed shape. -/
theorem status_shape_not_exact :
    statusHasExactSpecShape (getState memEnv "app.js" 0 [wOne]) = false
    ∧ (getState memEnv "app.js" 0 [wOne]).appMemoryMB = some 5
    ∧ (getState memEnv "app.js" 0 [wOne]).workers.map (fun w => w.memoryMB) = [some 5] := by
  decide

/-- C8 amended: `GET /status` returns 200 with the current status object; the
body contains `appFile`, `startTime`, and one `workers` entry per registry
entry, each carrying `id`, `pid`, `state` and `startTime` exactly as in the
registry (projecting away the optional memory/autostart fields yields
precisely the spec shape); beyond that shape the body may carry the
optional fields `memoryMB` (per worker), `appMemoryMB`, `system` and
`autostart`. -/
theorem status_contract (env : SysEnv) (a : String) (t : Nat) (ws : List WorkerInfo)
    (cb : Bool) :
    handleRequest "GET" "/status" cb (getState env a t ws) =
      (200, .statusBody (getState env a t ws))
    ∧ specOfStatus (getState env a t ws) = specStatusOfRegistry a t ws
    ∧ (getState env a t ws).workers.length = ws.length := by
  refine ⟨?_, ?_, ?_⟩
  · simp [handleRequest]
  · simp [specOfStatus, specStatusOfRegistry, getState]
  · simp [getState]

/-! ## C7 -/

theorem mem_removePid_iff {l : List Nat} {p q : Nat} (h : p ≠ q) :
    p ∈ removePid l q ↔ p ∈ l := by
  induction l with
  | nil => simp [removePid]
  | cons x xs ih =>
      unfold removePid
      split
      · rename_i hx
        subst hx
        rw [ih]
        constructor
        · exact fun hm => List.mem_cons_of_mem _ hm
        · intro hm
          rcases List.mem_cons.1 hm with rfl | hm
          · exact absurd rfl h
          · exact hm
      · simp only [List.mem_cons, ih]

/-- C7: `handleScaleDown` retires the oldest (lowest-id) worker.  It is
rejected with a warning and no state change while shutdown, reload, or
another scale step is active, and likewise when the registry holds at most
one worker.  Otherwise, for the minimum-id worker `w` (whose cluster handle
is alive), the step first marks `w` draining, sends it the `shutdown`
token, waits for its exit (killing on grace-timeout expiry, so `w`'s pid is
no longer live afterwards), removes `w` from the registry, and clears the
`isScalingDown` flag. -/
theorem scale_down_spec (s : MasterState) (ds : List Delivery) :
    ((s.isShuttingDown = true ∨ s.isReloading = true ∨ s.isScalingDown = true) →
      handleScaleDown s ds = (s, [Event.warn "Cannot scale down during shutdown/reload/scale"]))
    ∧ (s.isShuttingDown = false → s.isReloading = false → s.isScalingDown = false →
        s.workers.length ≤ 1 →
        handleScaleDown s ds = (s, [Event.warn "Cannot scale down: minimum 1 worker required"]))
    ∧ (∀ w : WorkerInfo, s.isShuttingDown = false → s.isReloading = false →
        s.isScalingDown = false → 2 ≤ s.workers.length →
        minById s.workers = some w → w.pid ∈ s.livePids →
        (∀ w2 ∈ s.workers, w.id ≤ w2.id)
        ∧ (handleScaleDown s ds).2.head? = some (Event.drainMark w.id)
        ∧ Event.sendShutdownTok w.pid ∈ (handleScaleDown s ds).2
        ∧ Event.removeEntry w.id ∈ (handleScaleDown s ds).2
        ∧ findWorker (handleScaleDown s ds).1.workers w.id = none
        ∧ w.pid ∉ (handleScaleDown s ds).1.livePids
        ∧ (handleScaleDown s ds).1.isScalingDown = false) := by
  refine ⟨?_, ?_, ?_⟩
  · intro h
    rcases h with h | h | h <;> simp [handleScaleDown, h]
  · intro h1 h2 h3 h4
    simp [handleScaleDown, h1, h2, h3, h4]
  · intro w h1 h2 h3 h4 hmin hlive
    have hlen : ¬ (s.workers.length ≤ 1) := by omega
    refine ⟨minById_le hmin, ?_, ?_, ?_, ?_, ?_, ?_⟩
    · simp [handleScaleDown, h1, h2, h3, hlen, hmin, hlive]
    · simp [handleScaleDown, h1, h2, h3, hlen, hmin, hlive]
    · simp [handleScaleDown, h1, h2, h3, hlen, hmin, hlive]
    · simp [handleScaleDown, h1, h2, h3, hlen, hmin, hlive, findWorker_delete]
    · simp [handleScaleDown, h1, h2, h3, hlen, hmin, hlive]
      split
      · exact not_mem_removePid_self _ _
      · assumption
    · simp [handleScaleDown, h1, h2, h3, hlen, hmin, hlive]

/-- Witness for C7: scaling down the concrete two-worker state retires
worker 1 (the oldest), drains it first, and ends with it removed. -/
theorem scale_down_spec_witness :
    minById sTwo.workers = some wOne
    ∧ ((∀ w2 ∈ sTwo.workers, wOne.id ≤ w2.id)
      ∧ (handleScaleDown sTwo [Delivery.exited 1001]).2.head? = some (Event.drainMark 1)
      ∧ Event.sendShutdownTok 1001 ∈ (handleScaleDown sTwo [Delivery.exited 1001]).2
      ∧ Event.removeEntry 1 ∈ (handleScaleDown sTwo [Delivery.exited 1001]).2
      ∧ findWorker (handleScaleDown sTwo [Delivery.exited 1001]).1.workers 1 = none
      ∧ 1001 ∉ (handleScaleDown sTwo [Delivery.exited 1001]).1.livePids
      ∧ (handleScaleDown sTwo [Delivery.exited 1001]).1.isScalingDown = false) :=
  ⟨by decide,
   (scale_down_spec sTwo [Delivery.exited 1001]).2.2 wOne (by decide) (by decide)
     (by decide) (by decide) (by decide) (by decide)⟩

/-! ## C4 -/

/-- C4: an aborted reload step.  When the replacement worker
(`nid = nextWorkerId + 1`) is not `ready` at the end of the ready-wait —
because the deadline expired or because it exited during the wait, both of
which make `waitReadyOutcome` false — the step kills the replacement and
removes it from the registry, emits no drain mark at all, and leaves the
old worker exactly as the concurrent deliveries left it: its registry
lookup and its liveness are unchanged by the step's own actions. -/
theorem reload_step_abort (s : MasterState) (oldId oldPid : Nat) (sch : StepSched)
    (hid : oldId ≤ s.nextWorkerId) (hpid : oldPid ≠ pidOf (s.nextWorkerId + 1))
    (hfail : waitReadyOutcome (applyDeliveries (forkWorker s).1 sch.ds1).1
      (s.nextWorkerId + 1) = false) :
    findWorker (reloadStep s oldId oldPid sch).1.workers (s.nextWorkerId + 1) = none
    ∧ Event.killW (pidOf (s.nextWorkerId + 1)) ∈ (reloadStep s oldId oldPid sch).2
    ∧ Event.removeEntry (s.nextWorkerId + 1) ∈ (reloadStep s oldId oldPid sch).2
    ∧ findWorker (reloadStep s oldId oldPid sch).1.workers oldId =
        findWorker (applyDeliveries (forkWorker s).1 sch.ds1).1.workers oldId
    ∧ (oldPid ∈ (reloadStep s oldId oldPid sch).1.livePids ↔
        oldPid ∈ (applyDeliveries (forkWorker s).1 sch.ds1).1.livePids)
    ∧ (∀ x, Event.drainMark x ∉ (reloadStep s oldId oldPid sch).2) := by
  have hnid : (forkWorker s).2.1 = s.nextWorkerId + 1 := rfl
  have hevF : (forkWorker s).2.2 =
      [Event.forkW (s.nextWorkerId + 1) (pidOf (s.nextWorkerId + 1))] := rfl
  have hne : ¬ (oldId = s.nextWorkerId + 1) := by omega
  refine ⟨?_, ?_, ?_, ?_, ?_, ?_⟩
  · simp [reloadStep, hnid, hevF, hfail, findWorker_delete]
  · simp [reloadStep, hnid, hevF, hfail]
  · simp [reloadStep, hnid, hevF, hfail]
  · simp [reloadStep, hnid, hevF, hfail, findWorker_delete, hne]
  · simp [reloadStep, hnid, hevF, hfail]
    exact mem_removePid_iff hpid
  · intro x
    simp [reloadStep, hnid, hevF, hfail]
    exact drainMark_not_in_applyDeliveries sch.ds1 _ x

/-- Witness for C4: in the two-worker state with no deliveries during the
wait, the replacement (worker 3) times out; it is killed and deregistered
while old worker 1 is untouched. -/
theorem reload_step_abort_witness :
    waitReadyOutcome (applyDeliveries (forkWorker sTwo).1 []).1 3 = false
    ∧ (findWorker (reloadStep sTwo 1 1001 ⟨[], []⟩).1.workers 3 = none
      ∧ Event.killW 1003 ∈ (reloadStep sTwo 1 1001 ⟨[], []⟩).2
      ∧ Event.removeEntry 3 ∈ (reloadStep sTwo 1 1001 ⟨[], []⟩).2
      ∧ findWorker (reloadStep sTwo 1 1001 ⟨[], []⟩).1.workers 1 =
          findWorker (applyDeliveries (forkWorker sTwo).1 []).1.workers 1
      ∧ (1001 ∈ (reloadStep sTwo 1 1001 ⟨[], []⟩).1.livePids ↔
          1001 ∈ (applyDeliveries (forkWorker sTwo).1 []).1.livePids)
      ∧ (∀ x, Event.drainMark x ∉ (reloadStep sTwo 1 1001 ⟨[], []⟩).2)) :=
  ⟨by decide, reload_step_abort sTwo 1 1001 ⟨[], []⟩ (by decide) (by decide) (by decide)⟩

/-! ## C3 machinery -/

/-- Retire-after-replace ordering of an event trace: every drain mark is
preceded by the fork of some worker and, strictly between the two, that
worker's ready mark. -/
def ReplaceBeforeRetire (evs : List Event) : Prop :=
  ∀ (i x : Nat), evs[i]? = some (Event.drainMark x) →
    ∃ (k j nid npid : Nat), k < j ∧ j < i
      ∧ evs[k]? = some (Event.forkW nid npid)
      ∧ evs[j]? = some (Event.readyMark nid)

theorem ReplaceBeforeRetire_append {a b : List Event}
    (ha : ReplaceBeforeRetire a) (hb : ReplaceBeforeRetire b) :
    ReplaceBeforeRetire (a ++ b) := by
  intro i x h
  by_cases hi : i < a.length
  · rw [List.getElem?_append_left hi] at h
    obtain ⟨k, j, nid, npid, hkj, hji, hk, hj⟩ := ha i x h
    refine ⟨k, j, nid, npid, hkj, hji, ?_, ?_⟩
    · rw [List.getElem?_append_left (by omega)]
      exact hk
    · rw [List.getElem?_append_left (by omega)]
      exact hj
  · push_neg at hi
    rw [List.getElem?_append_right hi] at h
    obtain ⟨k, j, nid, npid, hkj, hji, hk, hj⟩ := hb _ x h
    refine ⟨a.length + k, a.length + j, nid, npid, by omega, by omega, ?_, ?_⟩
    · rw [List.getElem?_append_right (by omega)]
      simpa [Nat.add_sub_cancel_left] using hk
    · rw [List.getElem?_append_right (by omega)]
      simpa [Nat.add_sub_cancel_left] using hj

theorem ReplaceBeforeRetire_of_no_drain {evs : List Event}
    (h : ∀ x, Event.drainMark x ∉ evs) : ReplaceBeforeRetire evs := by
  intro i x hx
  exact absurd (List.getElem?_mem hx) (h x)

theorem ReplaceBeforeRetire_shape (nid npid oldId : Nat) (evD tail : List Event)
    (hD : ∀ x, Event.drainMark x ∉ evD)
    (htail : ∀ x, Event.drainMark x ∉ tail)
    (hjd : ∃ (jd : Nat), evD[jd]? = some (Event.readyMark nid)) :
    ReplaceBeforeRetire (Event.forkW nid npid :: (evD ++ Event.drainMark oldId :: tail)) := by
  obtain ⟨jd, hjd⟩ := hjd
  have hjdlt : jd < evD.length := by
    by_contra hge
    push_neg at hge
    rw [List.getElem?_eq_none hge] at hjd
    exact Option.noConfusion hjd
  intro i x hx
  rcases i with _ | i2
  · exact absurd hx (by simp)
  · rw [List.getElem?_cons_succ] at hx
    by_cases hlt : i2 < evD.length
    · rw [List.getElem?_append_left hlt] at hx
      exact absurd (List.getElem?_mem hx) (hD x)
    · push_neg at hlt
      rw [List.getElem?_append_right hlt] at hx
      rcases heq : i2 - evD.length with _ | m
      · have hi2 : i2 = evD.length := by omega
        refine ⟨0, 1 + jd, nid, npid, by omega, by omega, by simp, ?_⟩
        rw [show 1 + jd = jd + 1 from by omega, List.getElem?_cons_succ,
          List.getElem?_append_left hjdlt]
        exact hjd
      · rw [heq, List.getElem?_cons_succ] at hx
        exact absurd (List.getElem?_mem hx) (htail x)

/-- `waitReadyOutcome` via `findWorker`. -/
theorem waitReadyOutcome_eq (s : MasterState) (nid : Nat) :
    waitReadyOutcome s nid =
      ((findWorker s.workers nid).map fun w => decide (w.state = WState.ready)).getD false := by
  unfold waitReadyOutcome
  cases findWorker s.workers nid <;> simp

theorem onWorkerExit_workers_busy (s : MasterState) (p : Nat)
    (h : s.isReloading = true ∨ s.isScalingDown = true) :
    (onWorkerExit s p).1.workers = s.workers ∨
    ∃ i, findWorkerByPid s.workers p = some i ∧
      (onWorkerExit s p).1.workers = deleteWorker s.workers i.id := by
  unfold onWorkerExit
  cases hf : findWorkerByPid { s with livePids := removePid s.livePids p }.workers p with
  | none =>
      simp only [hf]
      split
      · split
        · exact Or.inl rfl
        · exact Or.inl rfl
      · split
        · rename_i hcond
          exfalso
          rcases h with h | h <;> simp [h] at hcond
        · exact Or.inl rfl
  | some iw =>
      simp only [hf]
      split
      · split
        · exact Or.inr ⟨iw, rfl, rfl⟩
        · exact Or.inr ⟨iw, rfl, rfl⟩
      · split
        · rename_i hcond
          exfalso
          rcases h with h | h <;> simp [h] at hcond
        · exact Or.inr ⟨iw, rfl, rfl⟩

/-- One delivery can make the awaited worker ready only by emitting its ready
mark (while a reload is in progress no delivery forks, so nothing else can
insert or revive the awaited registry entry). -/
theorem waitReady_after_delivery (s : MasterState) (d : Delivery) (nid : Nat)
    (hIR : s.isReloading = true)
    (h : waitReadyOutcome (applyDelivery s d).1 nid = true) :
    waitReadyOutcome s nid = true ∨ Event.readyMark nid ∈ (applyDelivery s d).2 := by
  cases d with
  | readyMsg p =>
      have he : applyDelivery s (Delivery.readyMsg p) = onReadyMessage s p := rfl
      rw [he] at h ⊢
      unfold onReadyMessage at h ⊢
      cases hf : findWorkerByPid s.workers p with
      | none =>
          rw [hf] at h
          exact Or.inl h
      | some iw =>
          rw [hf] at h
          by_cases hin : iw.id = nid
          · right
            simp [hin]
          · left
            have h2 : waitReadyOutcome
                { s with workers := setWorkerState s.workers iw.id WState.ready } nid = true := h
            rw [waitReadyOutcome_eq] at h2
            have h3 : ((findWorker (setWorkerState s.workers iw.id WState.ready) nid).map
                fun w => decide (w.state = WState.ready)).getD false = true := h2
            rw [findWorker_set] at h3
            rw [waitReadyOutcome_eq]
            cases hfw : findWorker s.workers nid with
            | none =>
                rw [hfw] at h3
                simp at h3
            | some w =>
                rw [hfw] at h3
                have hwid : w.id = nid := findWorker_id_eq hfw
                simp at h3 ⊢
                rw [if_neg (show ¬ w.id = iw.id by omega)] at h3
                exact h3
  | exited p =>
      left
      have he : (applyDelivery s (Delivery.exited p)).1 = (onWorkerExit s p).1 := rfl
      rw [he] at h
      rcases onWorkerExit_workers_busy s p (Or.inl hIR) with hw | ⟨iw, hfi, hw⟩
      · rw [waitReadyOutcome_eq] at h ⊢
        rw [hw] at h
        exact h
      · rw [waitReadyOutcome_eq] at h ⊢
        rw [hw, findWorker_delete] at h
        by_cases hni : nid = iw.id
        · rw [if_pos hni] at h
          simp at h
        · rw [if_neg hni] at h
          exact h
  | stopCmd =>
      left
      have he : (applyDelivery s Delivery.stopCmd).1 = (handleShutdown s).1 := rfl
      rw [he] at h
      rw [waitReadyOutcome_eq] at h ⊢
      rw [(handleShutdown_shape s).2.2.1] at h
      exact h

/-- During a reload, a worker that was not ready can only be observed ready
after a delivery sequence that contains its ready mark. -/
theorem waitReady_requires_readyMark (ds : List Delivery) :
    ∀ (s : MasterState) (nid : Nat), s.isReloading = true →
      waitReadyOutcome s nid = false →
      waitReadyOutcome (applyDeliveries s ds).1 nid = true →
      Event.readyMark nid ∈ (applyDeliveries s ds).2 := by
  induction ds with
  | nil =>
      intro s nid _ h0 h1
      have h2 : waitReadyOutcome s nid = true := h1
      rw [h0] at h2
      exact absurd h2 (by simp)
  | cons d ds ih =>
      intro s nid hIR h0 h1
      have hstep : (applyDeliveries s (d :: ds)).1 =
          (applyDeliveries (applyDelivery s d).1 ds).1 := rfl
      have hev : (applyDeliveries s (d :: ds)).2 =
          (applyDelivery s d).2 ++ (applyDeliveries (applyDelivery s d).1 ds).2 := rfl
      rw [hev]
      rw [hstep] at h1
      by_cases hmid : waitReadyOutcome (applyDelivery s d).1 nid = true
      · rcases waitReady_after_delivery s d nid hIR hmid with hpre | hin
        · rw [h0] at hpre
          exact absurd hpre (by simp)
        · exact List.mem_append_left _ hin
      · have hIR1 : (applyDelivery s d).1.isReloading = true :=
          (applyDelivery_flags s d).1.trans hIR
        have hmid2 : waitReadyOutcome (applyDelivery s d).1 nid = false := by
          simp at hmid
          exact hmid
        exact List.mem_append_right _ (ih _ nid hIR1 hmid2 h1)

theorem idsLe_setWorkerState (ws : List WorkerInfo) (i : Nat) (st : WState) (n : Nat)
    (h : ∀ w ∈ ws, w.id ≤ n) : ∀ w ∈ setWorkerState ws i st, w.id ≤ n := by
  intro w hw
  rcases List.mem_map.1 hw with ⟨w0, hw0, rfl⟩
  have hle := h w0 hw0
  split <;> exact hle

theorem idsLe_deleteWorker (ws : List WorkerInfo) (i : Nat) (n : Nat)
    (h : ∀ w ∈ ws, w.id ≤ n) : ∀ w ∈ deleteWorker ws i, w.id ≤ n :=
  fun w hw => h w (mem_deleteWorker hw)

theorem IdBound_forkWorker (s : MasterState) (h : IdBound s) : IdBound (forkWorker s).1 := by
  intro w hw
  have hws : (forkWorker s).1.workers = s.workers ++
      [{ id := s.nextWorkerId + 1, pid := pidOf (s.nextWorkerId + 1),
         state := WState.starting, startTime := s.clock }] := rfl
  rw [hws] at hw
  rcases List.mem_append.1 hw with hw | hw
  · exact Nat.le_succ_of_le (h w hw)
  · rcases List.mem_singleton.1 hw with rfl
    exact Nat.le_refl _

theorem IdBound_applyDelivery (s : MasterState) (d : Delivery) (h : IdBound s) :
    IdBound (applyDelivery s d).1 := by
  cases d with
  | readyMsg p =>
      have he : applyDelivery s (Delivery.readyMsg p) = onReadyMessage s p := rfl
      rw [he]
      unfold onReadyMessage
      cases hf : findWorkerByPid s.workers p with
      | none => exact h
      | some iw =>
          intro w hw
          exact idsLe_setWorkerState s.workers iw.id WState.ready s.nextWorkerId h w hw
  | exited p =>
      have he : applyDelivery s (Delivery.exited p) = onWorkerExit s p := rfl
      rw [he]
      unfold onWorkerExit
      cases hf : findWorkerByPid { s with livePids := removePid s.livePids p }.workers p <;>
        simp only [hf] <;> split
      · split
        · exact h
        · exact h
      · split
        · exact IdBound_forkWorker _ h
        · exact h
      · split
        · intro w hw
          exact idsLe_deleteWorker s.workers _ _ h w hw
        · intro w hw
          exact idsLe_deleteWorker s.workers _ _ h w hw
      · split
        · exact IdBound_forkWorker _ fun w hw => idsLe_deleteWorker s.workers _ _ h w hw
        · intro w hw
          exact idsLe_deleteWorker s.workers _ _ h w hw
  | stopCmd =>
      have he : applyDelivery s Delivery.stopCmd = handleShutdown s := rfl
      rw [he]
      unfold handleShutdown
      split
      · exact h
      · exact h

theorem IdBound_applyDeliveries (ds : List Delivery) :
    ∀ s : MasterState, IdBound s → IdBound (applyDeliveries s ds).1 := by
  induction ds with
  | nil => intro s h; exact h
  | cons d ds ih => intro s h; exact ih _ (IdBound_applyDelivery s d h)

theorem reloadStep_isReloading (s : MasterState) (oldId oldPid : Nat) (sch : StepSched) :
    (reloadStep s oldId oldPid sch).1.isReloading = s.isReloading := by
  have h1 : (applyDeliveries (forkWorker s).1 sch.ds1).1.isReloading = s.isReloading :=
    (applyDeliveries_flags sch.ds1 (forkWorker s).1).1
  simp only [reloadStep]
  split
  · split
    · have h2 := (applyDeliveries_flags sch.ds2
        { (applyDeliveries (forkWorker s).1 sch.ds1).1 with
          workers := setWorkerState (applyDeliveries (forkWorker s).1 sch.ds1).1.workers
            oldId WState.draining }).1
      split
      · exact h2.trans h1
      · exact h2.trans h1
    · exact h1
  · exact h1

theorem IdBound_reloadStep (s : MasterState) (oldId oldPid : Nat) (sch : StepSched)
    (h : IdBound s) : IdBound (reloadStep s oldId oldPid sch).1 := by
  have hb1 : IdBound (applyDeliveries (forkWorker s).1 sch.ds1).1 :=
    IdBound_applyDeliveries sch.ds1 _ (IdBound_forkWorker s h)
  simp only [reloadStep]
  split
  · split
    · have hb3 : IdBound (applyDeliveries
          { (applyDeliveries (forkWorker s).1 sch.ds1).1 with
            workers := setWorkerState (applyDeliveries (forkWorker s).1 sch.ds1).1.workers
              oldId WState.draining } sch.ds2).1 :=
        IdBound_applyDeliveries sch.ds2 _
          (fun w hw => idsLe_setWorkerState _ oldId WState.draining _
            (fun w2 hw2 => hb1 w2 hw2) w hw)
      split
      · intro w hw
        exact idsLe_deleteWorker _ oldId _ (fun w2 hw2 => hb3 w2 hw2) w hw
      · intro w hw
        exact idsLe_deleteWorker _ oldId _ (fun w2 hw2 => hb3 w2 hw2) w hw
    · intro w hw
      exact idsLe_deleteWorker _ oldId _ (fun w2 hw2 => hb1 w2 hw2) w hw
  · intro w hw
    exact idsLe_deleteWorker _ _ _ (fun w2 hw2 => hb1 w2 hw2) w hw

theorem waitReadyOutcome_fork_false (s : MasterState) (h : IdBound s) :
    waitReadyOutcome (forkWorker s).1 (s.nextWorkerId + 1) = false := by
  rw [waitReadyOutcome_eq]
  have hws : (forkWorker s).1.workers = s.workers ++
      [{ id := s.nextWorkerId + 1, pid := pidOf (s.nextWorkerId + 1),
         state := WState.starting, startTime := s.clock }] := rfl
  have hnone : findWorker s.workers (s.nextWorkerId + 1) = none :=
    findWorker_eq_none fun w hw => by have := h w hw; omega
  rw [hws, findWorker_append_right hnone]
  simp [findWorker]

/-- The retire-after-replace ordering holds for every single reload step. -/
theorem ReplaceBeforeRetire_reloadStep (s : MasterState) (oldId oldPid : Nat) (sch : StepSched)
    (hIR : s.isReloading = true) (hB : IdBound s) :
    ReplaceBeforeRetire (reloadStep s oldId oldPid sch).2 := by
  have hIRf : (forkWorker s).1.isReloading = s.isReloading := rfl
  have hfalse : waitReadyOutcome (forkWorker s).1 (s.nextWorkerId + 1) = false :=
    waitReadyOutcome_fork_false s hB
  have hnid : (forkWorker s).2.1 = s.nextWorkerId + 1 := rfl
  have hevF : (forkWorker s).2.2 =
      [Event.forkW (s.nextWorkerId + 1) (pidOf (s.nextWorkerId + 1))] := rfl
  by_cases hready : waitReadyOutcome (applyDeliveries (forkWorker s).1 sch.ds1).1
      (s.nextWorkerId + 1) = true
  · by_cases hlive : oldPid ∈ (applyDeliveries (forkWorker s).1 sch.ds1).1.livePids
    · have hmem : Event.readyMark (s.nextWorkerId + 1) ∈
          (applyDeliveries (forkWorker s).1 sch.ds1).2 :=
        waitReady_requires_readyMark sch.ds1 (forkWorker s).1 _
          (hIRf.trans hIR) hfalse hready
      simp [reloadStep, hnid, hevF, hready, hlive]
      apply ReplaceBeforeRetire_shape
      · intro x
        exact drainMark_not_in_applyDeliveries sch.ds1 _ x
      · intro x hx
        simp only [List.mem_cons, List.mem_append] at hx
        rcases hx with hh | hh | hh | hh | hh
        · exact Event.noConfusion hh
        · exact Event.noConfusion hh
        · exact drainMark_not_in_applyDeliveries sch.ds2 _ x hh
        · revert hh
          split <;> simp
        · simp at hh
      · obtain ⟨jd, hjdlt, hjdeq⟩ := List.getElem_of_mem hmem
        exact ⟨jd, by rw [List.getElem?_eq_getElem hjdlt, hjdeq]⟩
    · apply ReplaceBeforeRetire_of_no_drain
      intro x
      simp [reloadStep, hnid, hevF, hready, hlive]
      exact drainMark_not_in_applyDeliveries sch.ds1 _ x
  · have hfail : waitReadyOutcome (applyDeliveries (forkWorker s).1 sch.ds1).1
        (s.nextWorkerId + 1) = false := by
      simp at hready
      exact hready
    apply ReplaceBeforeRetire_of_no_drain
    intro x
    simp [reloadStep, hnid, hevF, hfail]
    exact drainMark_not_in_applyDeliveries sch.ds1 _ x

theorem ReplaceBeforeRetire_reloadLoop (snap : List (Nat × Nat)) :
    ∀ (s : MasterState) (sch : List StepSched), s.isReloading = true → IdBound s →
      ReplaceBeforeRetire (reloadLoop s snap sch).2 := by
  induction snap with
  | nil =>
      intro s sch _ _ i x hx
      have hn : (reloadLoop s [] sch).2 = [] := rfl
      rw [hn] at hx
      simp at hx
  | cons e rest ih =>
      intro s sch hIR hB
      have hr : (reloadLoop s (e :: rest) sch).2 =
          (reloadStep s e.1 e.2 (sch.headD ⟨[], []⟩)).2 ++
          (reloadLoop (reloadStep s e.1 e.2 (sch.headD ⟨[], []⟩)).1 rest sch.tail).2 := rfl
      rw [hr]
      exact ReplaceBeforeRetire_append
        (ReplaceBeforeRetire_reloadStep s e.1 e.2 _ hIR hB)
        (ih _ _ ((reloadStep_isReloading s e.1 e.2 _).trans hIR)
          (IdBound_reloadStep s e.1 e.2 _ hB))

/-! ## C3 -/

/-- C3: replacement-then-retire.  In any run of `handleReload`, under the
registry well-formedness fact that ids never exceed the id counter, every
drain mark in the trace (the retire action of a reload step; the step sends
the `shutdown` token to the old worker only after this mark) is preceded by
the fork of a replacement worker and, strictly between fork and drain, the
event of that replacement reaching state `ready`.  Retire-then-replace
never happens. -/
theorem replacement_before_retire (s : MasterState) (sch : List StepSched)
    (hB : IdBound s) :
    ∀ (i x : Nat), ((handleReload s sch).2)[i]? = some (Event.drainMark x) →
      ∃ (k j nid npid : Nat), k < j ∧ j < i
        ∧ ((handleReload s sch).2)[k]? = some (Event.forkW nid npid)
        ∧ ((handleReload s sch).2)[j]? = some (Event.readyMark nid) := by
  unfold handleReload
  split
  · intro i x hx
    rcases i with _ | i2
    · exact absurd hx (by simp)
    · rw [List.getElem?_cons_succ] at hx
      simp at hx
  · exact ReplaceBeforeRetire_reloadLoop _ { s with isReloading := true } sch rfl
      fun w hw => hB w hw

/-- A healthy one-worker master state. -/
def sOneW : MasterState :=
  { appFile := "app.js", startTime := 0, workers := [wOne], livePids := [1001],
    isShuttingDown := false, isReloading := false, isScalingDown := false,
    nextWorkerId := 1, clock := 3 }

/-- Witness for C3 on a concrete reload in which the replacement's ready
message arrives during the wait and the old worker then drains. -/
theorem replacement_before_retire_witness :
    IdBound sOneW
    ∧ (∀ (i x : Nat), ((handleReload sOneW
        [⟨[Delivery.readyMsg 1002], [Delivery.exited 1001]⟩]).2)[i]? =
          some (Event.drainMark x) →
      ∃ (k j nid npid : Nat), k < j ∧ j < i
        ∧ ((handleReload sOneW
            [⟨[Delivery.readyMsg 1002], [Delivery.exited 1001]⟩]).2)[k]? =
              some (Event.forkW nid npid)
        ∧ ((handleReload sOneW
            [⟨[Delivery.readyMsg 1002], [Delivery.exited 1001]⟩]).2)[j]? =
              some (Event.readyMark nid)) :=
  ⟨by decide,
   replacement_before_retire sOneW
     [⟨[Delivery.readyMsg 1002], [Delivery.exited 1001]⟩] (by decide)⟩

end GPDD
